import Mathlib

/-!
Shallow embedding of `src/index.js`: an Express service exposing a chat
endpoint backed by an LLM, with an agent loop that dispatches tool calls
(`executeTool`), per-session transcripts in an in-memory map, and
GET/DELETE session routes.  The remote model (`anthropic.messages.create`)
is a parameter `client`; the wall clock (`new Date()` and its methods) is a
parameter `Clock`.  JavaScript exceptions are modelled with `Except Unit`.
-/

/-- The observable behaviour of `new Date()` at the moment `executeTool`
runs: the strings and numbers the tool reads off it.  `toLocaleString tz`
is `none` when the JS call `toLocaleString('en-US', { timeZone: tz })`
would throw a `RangeError` (invalid timezone identifier), and `some s`
with the formatted string otherwise. -/
structure Clock where
  toISOString : String
  toUTCString : String
  getTime : Nat
  toLocaleString : String → Option String

/-- The input object of a `get_current_time` tool call: an object with an
optional string field `timezone` (the tool's declared input schema). -/
structure ToolInput where
  timezone : Option String
  deriving DecidableEq, Repr

/-- The object returned by the `get_current_time` branch of `executeTool`;
`note` is present only on the invalid-timezone fallback path. -/
structure TimeResult where
  iso : String
  formatted : String
  timezone : String
  unix_timestamp : Nat
  note : Option String
  deriving DecidableEq, Repr

/-- A value returned by `executeTool`: either the time object or the
`\x7b error: ... \x7d` object used for unknown tools. -/
inductive ToolValue where
  | time (r : TimeResult)
  | err (msg : String)
  deriving DecidableEq, Repr

/-- `executeTool(toolName, toolInput)` from `src/index.js` lines 30-56.
`toolInput = none` models calling it with `undefined`/`null`: the property
access `toolInput.timezone` on line 34 then throws a TypeError, which is
OUTSIDE the try block, hence `.error ()`.  The `||` on line 34 treats the
empty string as falsy, so `timezone = ""` also defaults to `"UTC"`. -/
def executeTool (clock : Clock) (toolName : String) (toolInput : Option ToolInput) :
    Except Unit ToolValue :=
  if toolName = "get_current_time" then
    match toolInput with
    | none => .error ()
    | some input =>
      let timezone :=
        match input.timezone with
        | some tz => if tz = "" then "UTC" else tz
        | none => "UTC"
      match clock.toLocaleString timezone with
      | some formatted =>
          .ok (.time { iso := clock.toISOString, formatted := formatted,
                       timezone := timezone,
                       unix_timestamp := clock.getTime / 1000, note := none })
      | none =>
          .ok (.time { iso := clock.toISOString, formatted := clock.toUTCString,
                       timezone := "UTC",
                       unix_timestamp := clock.getTime / 1000,
                       note := some ("Invalid timezone \"" ++ timezone ++
                                     "\", defaulted to UTC") })
  else
    .ok (.err ("Unknown tool: " ++ toolName))

/-- One hex digit, lowercase, as produced by `JSON.stringify` escapes. -/
def hexDigitChar (n : Nat) : Char :=
  if n < 10 then Char.ofNat (48 + n) else Char.ofNat (87 + n)

/-- `JSON.stringify` escaping of a single character inside a string. -/
def jsonEscapeChar (c : Char) : String :=
  if c = '"' then "\\\""
  else if c = '\\' then "\\\\"
  else if c = '\x08' then "\\b"
  else if c = '\x0c' then "\\f"
  else if c = '\n' then "\\n"
  else if c = '\r' then "\\r"
  else if c = '\t' then "\\t"
  else if c.toNat < 32 then
    "\\u00" ++ String.singleton (hexDigitChar (c.toNat / 16)) ++
      String.singleton (hexDigitChar (c.toNat % 16))
  else String.singleton c

/-- `JSON.stringify` escaping of a string body. -/
def jsonEscape (s : String) : String :=
  String.join (s.data.map jsonEscapeChar)

/-- A JSON string literal. -/
def jsonStr (s : String) : String :=
  "\"" ++ jsonEscape s ++ "\""

/-- `JSON.stringify(result)` on line 123, for the two object shapes
`executeTool` can return (keys in insertion order, `note` last and only
when present). -/
def stringifyToolValue : ToolValue → String
  | .time r =>
      "\x7b\"iso\":" ++ jsonStr r.iso ++
      ",\"formatted\":" ++ jsonStr r.formatted ++
      ",\"timezone\":" ++ jsonStr r.timezone ++
      ",\"unix_timestamp\":" ++ toString r.unix_timestamp ++
      (match r.note with
       | none => ""
       | some n => ",\"note\":" ++ jsonStr n) ++ "\x7d"
  | .err m => "\x7b\"error\":" ++ jsonStr m ++ "\x7d"

/-- A content block of a model response or user message, per the Anthropic
message shape used in `src/index.js` (`text`, `tool_use`, `tool_result`).
The API delivers `tool_use.input` as a JSON object, modelled as `ToolInput`. -/
inductive ContentBlock where
  | text (text : String)
  | tool_use (id : String) (name : String) (input : ToolInput)
  | tool_result (tool_use_id : String) (content : String)
  deriving DecidableEq, Repr

/-- `block.type === 'tool_use'` (the filter on line 110). -/
def isToolUse : ContentBlock → Bool
  | .tool_use _ _ _ => true
  | _ => false

/-- `block.type === 'text'` (the find on line 136). -/
def isText : ContentBlock → Bool
  | .text _ => true
  | _ => false

/-- The speaker of a transcript entry (`role` field). -/
inductive Role where
  | user
  | assistant
  deriving DecidableEq, Repr

/-- The `content` of a transcript entry: a plain string (the inbound user
message, line 87) or a block list (lines 114, 128, 133). -/
inductive TurnContent where
  | text (s : String)
  | blocks (bs : List ContentBlock)
  deriving DecidableEq, Repr

/-- One entry of the `messages` array stored per session. -/
structure Turn where
  role : Role
  content : TurnContent
  deriving DecidableEq, Repr

/-- `stop_reason` of a model response. -/
inductive StopReason where
  | tool_use
  | end_turn
  | other
  deriving DecidableEq, Repr

/-- Token usage counters of one model response. -/
structure Usage where
  input_tokens : Nat
  output_tokens : Nat
  deriving DecidableEq, Repr

/-- The model response consumed by the loop: content blocks, stop reason,
usage. -/
structure ModelResponse where
  content : List ContentBlock
  stop_reason : StopReason
  usage : Usage
  deriving DecidableEq, Repr

/-- The remote model: called with the current transcript, returns a
response or fails (`.error ()` models a thrown transport/provider error
from `anthropic.messages.create`). -/
def ModelClient := List Turn → Except Unit ModelResponse

/-- Lines 117-125: turn one `tool_use` block into a `tool_result` block by
running `executeTool(toolUse.name, toolUse.input)` and stringifying.  A
thrown exception propagates (`Except`).  Only `tool_use` blocks are ever
passed in (the list was filtered on line 110). -/
def mkToolResult (clock : Clock) : ContentBlock → Except Unit ContentBlock
  | .tool_use id name input =>
      (executeTool clock name (some input)).map fun v =>
        .tool_result id (stringifyToolValue v)
  | b => .ok b

/-- `toolUseBlocks.map(...)` on line 117: left-to-right, a throw aborts the
rest. -/
def collectToolResults (clock : Clock) : List ContentBlock → Except Unit (List ContentBlock)
  | [] => .ok []
  | b :: rest => do
      let r ← mkToolResult clock b
      let rs ← collectToolResults clock rest
      .ok (r :: rs)

/-- `textContent ? textContent.text : ''` (lines 136-137). -/
def extractText (content : List ContentBlock) : String :=
  match content.find? isText with
  | some (.text t) => t
  | _ => ""

/-- How one POST /chat request ends: the 200 body's data, the
iteration-limit 500, or the catch-all 500 for a thrown model-call error. -/
inductive ChatOutcome where
  | success (responseText : String) (usage : Usage) (iterations : Nat)
  | iterationLimit
  | upstreamError
  deriving DecidableEq, Repr

/-- The `while (iterations < maxIterations)` agent loop, lines 94-146.
`fuel` is the number of iterations still allowed (`maxIterations -
iterations` in the JS); `iterations` and `totalUsage` are the mutable
locals; `messages` is the session's array (appends included).  Returns the
outcome together with the final contents of `messages` — in the JS the
array lives in the session map, so appends survive every outcome. -/
def runLoop (client : ModelClient) (clock : Clock) :
    Nat → Nat → Usage → List Turn → ChatOutcome × List Turn
  | 0, _, _, messages => (.iterationLimit, messages)
  | fuel + 1, iterations, totalUsage, messages =>
    let iterations := iterations + 1
    match client messages with
    | .error _ => (.upstreamError, messages)
    | .ok response =>
      let totalUsage : Usage :=
        { input_tokens := totalUsage.input_tokens + response.usage.input_tokens,
          output_tokens := totalUsage.output_tokens + response.usage.output_tokens }
      let toolUseBlocks := response.content.filter isToolUse
      if response.stop_reason = .tool_use ∧ 0 < toolUseBlocks.length then
        let messages := messages ++ [⟨.assistant, .blocks response.content⟩]
        match collectToolResults clock toolUseBlocks with
        | .error _ => (.upstreamError, messages)
        | .ok toolResults =>
            runLoop client clock fuel iterations totalUsage
              (messages ++ [⟨.user, .blocks toolResults⟩])
      else
        let messages := messages ++ [⟨.assistant, .blocks response.content⟩]
        (.success (extractText response.content) totalUsage iterations, messages)

/-- `maxIterations` (line 92). -/
def maxIterations : Nat := 10

/-- The in-memory session map `messageHistory`, observed through
`has`/`get`/`set`/`delete`. -/
def Store := String → Option (List Turn)

/-- `messageHistory.set(k, v)`. -/
def Store.set (s : Store) (k : String) (v : List Turn) : Store :=
  fun q => if q = k then some v else s q

/-- `messageHistory.delete(k)`. -/
def Store.erase (s : Store) (k : String) : Store :=
  fun q => if q = k then none else s q

/-- The empty map. -/
def Store.empty : Store := fun _ => none

/-- JSON bodies the service sends. -/
inductive ChatBody where
  | chatOk (response : String) (session_id : String) (usage : Usage) (iterations : Nat)
  | err (error : String)
  | cleared (message : String)
  | history (session_id : String) (messages : List Turn)
  deriving DecidableEq, Repr

/-- An HTTP response: status code and JSON body. -/
structure HttpResponse where
  status : Nat
  body : ChatBody
  deriving DecidableEq, Repr

/-- The POST /chat handler (lines 72-154).  `message = none` models an
absent field; `some ""` is falsy too, both hit the 400.  The handler
creates the session entry if missing, pushes the user turn, runs the loop,
and maps the outcome to a response; the final `messages` array is what the
session map holds afterwards, whatever the outcome. -/
def postChat (client : ModelClient) (clock : Clock) (store : Store) :
    Option String → Option String → HttpResponse × Store
  | none, _ => (⟨400, .err "Message is required"⟩, store)
  | some msg, session_id =>
    if msg = "" then (⟨400, .err "Message is required"⟩, store)
    else
      let sid := session_id.getD "default"
      let messages := ((store sid).getD []) ++ [⟨.user, .text msg⟩]
      match runLoop client clock maxIterations 0 ⟨0, 0⟩ messages with
      | (.success responseText usage iterations, finalMsgs) =>
          (⟨200, .chatOk responseText sid usage iterations⟩, store.set sid finalMsgs)
      | (.iterationLimit, finalMsgs) =>
          (⟨500, .err "Agent loop exceeded maximum iterations"⟩, store.set sid finalMsgs)
      | (.upstreamError, finalMsgs) =>
          (⟨500, .err "Failed to get response from LLM"⟩, store.set sid finalMsgs)

/-- The GET /chat/:session_id handler (lines 168-178). -/
def getChat (store : Store) (sid : String) : HttpResponse :=
  match store sid with
  | some msgs => ⟨200, .history sid msgs⟩
  | none => ⟨404, .err "Session not found"⟩

/-- The DELETE /chat/:session_id handler (lines 157-165). -/
def deleteChat (store : Store) (sid : String) : HttpResponse × Store :=
  match store sid with
  | some _ => (⟨200, .cleared ("Session " ++ sid ++ " cleared")⟩, store.erase sid)
  | none => (⟨404, .err "Session not found"⟩, store)

/-- Appending one turn to a session the way the handler does (create the
entry if missing, then push). -/
def appendTurn (store : Store) (sid : String) (t : Turn) : Store :=
  store.set sid (((store sid).getD []) ++ [t])

/-- Appending a sequence of turns, first to last. -/
def appendTurns (store : Store) (sid : String) (ts : List Turn) : Store :=
  ts.foldl (fun s t => appendTurn s sid t) store

/-- A `tool_use` block answered by a `tool_result` block with the same id. -/
def IdMatch : ContentBlock → ContentBlock → Prop
  | .tool_use id _ _, .tool_result rid _ => rid = id
  | _, _ => False

/-- The transcript invariant of §3: every assistant turn whose block list
contains `tool_use` blocks is immediately followed by a user turn whose
content is one `tool_result` per `tool_use` block, same ids, same order. -/
def ToolPaired : List Turn → Prop
  | [] => True
  | ⟨.assistant, .blocks c⟩ :: rest =>
      (if (c.filter isToolUse).isEmpty then True
       else
         match rest with
         | ⟨.user, .blocks rs⟩ :: _ => List.Forall₂ IdMatch (c.filter isToolUse) rs
         | _ => False) ∧ ToolPaired rest
  | _ :: rest => ToolPaired rest

/-- A transcript fragment that is a run of assistant/user block-turn pairs. -/
inductive AssistantUserPairs : List Turn → Prop
  | nil : AssistantUserPairs []
  | cons (a u : List ContentBlock) (rest : List Turn) :
      AssistantUserPairs rest →
      AssistantUserPairs (⟨.assistant, .blocks a⟩ :: ⟨.user, .blocks u⟩ :: rest)

/-- A model that immediately answers "Hello" and stops. -/
def helloClient : ModelClient :=
  fun _ => .ok ⟨[.text "Hello"], .end_turn, ⟨3, 4⟩⟩

/-- A model whose response carries a `tool_use` block but a terminal
`end_turn` stop reason. -/
def mixedStopClient : ModelClient :=
  fun _ => .ok ⟨[.tool_use "t1" "get_current_time" ⟨none⟩], .end_turn, ⟨1, 1⟩⟩

/-- A model that requests the time tool on every single call. -/
def alwaysToolClient : ModelClient :=
  fun _ => .ok ⟨[.tool_use "t1" "get_current_time" ⟨none⟩], .tool_use, ⟨1, 1⟩⟩

/-- A model whose call always throws. -/
def failingClient : ModelClient := fun _ => .error ()

/-- A model that stops immediately with no text block at all. -/
def noTextClient : ModelClient := fun _ => .ok ⟨[], .end_turn, ⟨1, 2⟩⟩

/-- A fixed concrete clock for witnesses and counterexamples: `UTC` and
`America/New_York` are its valid timezone identifiers, everything else
(including the empty string) makes `toLocaleString` throw. -/
def testClock : Clock where
  toISOString := "2024-01-01T00:00:00.000Z"
  toUTCString := "Mon, 01 Jan 2024 00:00:00 GMT"
  getTime := 1704067200000
  toLocaleString := fun tz =>
    if tz = "UTC" then some "1/1/2024, 12:00:00 AM"
    else if tz = "America/New_York" then some "12/31/2023, 7:00:00 PM"
    else none

instance {ε α : Type} [DecidableEq ε] [DecidableEq α] : DecidableEq (Except ε α) := fun
  | .ok a, .ok b =>
      if h : a = b then .isTrue (by rw [h]) else .isFalse (by intro hc; cases hc; exact h rfl)
  | .error a, .error b =>
      if h : a = b then .isTrue (by rw [h]) else .isFalse (by intro hc; cases hc; exact h rfl)
  | .ok _, .error _ => .isFalse (by intro hc; cases hc)
  | .error _, .ok _ => .isFalse (by intro hc; cases hc)

example : executeTool testClock "get_current_time" none = .error () := by decide

example : executeTool testClock "frobnicate" none =
    .ok (.err "Unknown tool: frobnicate") := by decide

example : executeTool testClock "get_current_time" (some ⟨some "Mars/Olympus"⟩) =
    .ok (.time { iso := "2024-01-01T00:00:00.000Z",
                 formatted := "Mon, 01 Jan 2024 00:00:00 GMT",
                 timezone := "UTC", unix_timestamp := 1704067200,
                 note := some "Invalid timezone \"Mars/Olympus\", defaulted to UTC" }) := by
  decide

example : executeTool testClock "get_current_time" (some ⟨some ""⟩) =
    .ok (.time { iso := "2024-01-01T00:00:00.000Z",
                 formatted := "1/1/2024, 12:00:00 AM",
                 timezone := "UTC", unix_timestamp := 1704067200,
                 note := none }) := by decide

/-- With a present input object, `executeTool` always returns normally:
every path of the `get_current_time` branch ends in a `return`, and the
default branch returns the unknown-tool error object. -/
theorem executeTool_some_ok (clock : Clock) (name : String) (input : ToolInput) :
    ∃ v, executeTool clock name (some input) = Except.ok v := by
  unfold executeTool
  by_cases h : name = "get_current_time" <;> simp [h]
  split <;> simp

/-- `mkToolResult` on a `tool_use` block wraps the serialized tool value in
a `tool_result` block with the same id. -/
theorem mkToolResult_tool_use (clock : Clock) (id name : String) (input : ToolInput) :
    ∃ v, executeTool clock name (some input) = Except.ok v ∧
      mkToolResult clock (.tool_use id name input) =
        Except.ok (.tool_result id (stringifyToolValue v)) := by
  obtain ⟨v, hv⟩ := executeTool_some_ok clock name input
  exact ⟨v, hv, by simp [mkToolResult, hv, Except.map]⟩

/-- Collecting tool results over a list of `tool_use` blocks always
succeeds and produces one id-matching `tool_result` per block, in order. -/
theorem collectToolResults_ok (clock : Clock) :
    ∀ l : List ContentBlock, (∀ b ∈ l, isToolUse b = true) →
      ∃ rs, collectToolResults clock l = Except.ok rs ∧ List.Forall₂ IdMatch l rs := by
  intro l
  induction l with
  | nil => intro _; exact ⟨[], rfl, .nil⟩
  | cons b rest ih =>
    intro h
    have hb := h b (by simp)
    obtain ⟨rs, hrs, hfa⟩ := ih (fun x hx => h x (by simp [hx]))
    cases b with
    | text t => simp [isToolUse] at hb
    | tool_result i c => simp [isToolUse] at hb
    | tool_use id name input =>
      obtain ⟨v, hv, hmk⟩ := mkToolResult_tool_use clock id name input
      refine ⟨.tool_result id (stringifyToolValue v) :: rs, ?_, ?_⟩
      · simp only [collectToolResults, hmk, hrs]
        rfl
      · exact .cons (by simp [IdMatch]) hfa

/-- C1 counterexample: calling `executeTool` with the known tool name but
an absent (`undefined`) input object throws — the property access
`toolInput.timezone` on line 34 sits outside the try block — so the claim
"never raises for every input value, including absent input objects" fails
at this concrete input. -/
theorem executeTool_throws_on_absent_input :
    executeTool testClock "get_current_time" none = Except.error () := by decide

/-- C1 (amended): for every clock, tool name and PRESENT input object,
`executeTool` returns a structured value and never raises; an unknown name
yields the `error: Unknown tool` object, and the loop wraps whatever came
back into a `tool_result` block carrying its serialization. -/
theorem executeTool_total_on_object_input (clock : Clock) (toolName : String)
    (input : ToolInput) (id : String) :
    ∃ v, executeTool clock toolName (some input) = Except.ok v ∧
      mkToolResult clock (.tool_use id toolName input) =
        Except.ok (.tool_result id (stringifyToolValue v)) ∧
      (toolName ≠ "get_current_time" → v = .err ("Unknown tool: " ++ toolName)) := by
  obtain ⟨v, hv, hmk⟩ := mkToolResult_tool_use clock id toolName input
  refine ⟨v, hv, hmk, fun hne => ?_⟩
  rw [executeTool, if_neg hne] at hv
  cases hv
  rfl

/-- C1 witness: the amended theorem evaluated at an unknown tool name and
a concrete empty input object. -/
theorem executeTool_total_on_object_input_witness :
    ∃ v, executeTool testClock "frobnicate" (some ⟨none⟩) = Except.ok v ∧
      mkToolResult testClock (.tool_use "t9" "frobnicate" ⟨none⟩) =
        Except.ok (.tool_result "t9" (stringifyToolValue v)) ∧
      ("frobnicate" ≠ "get_current_time" → v = .err ("Unknown tool: " ++ "frobnicate")) :=
  executeTool_total_on_object_input testClock "frobnicate" ⟨none⟩ "t9"

/-- C5 counterexample: the empty string is not a valid timezone identifier
(`testClock.toLocaleString "" = none`), yet the time tool's result for
`timezone = ""` carries NO explanatory note: `"" || 'UTC'` on line 34
treats the empty string as absent and defaults silently, never reaching
the catch block that adds the note. -/
theorem time_tool_empty_timezone_no_note :
    testClock.toLocaleString "" = none ∧
    executeTool testClock "get_current_time" (some ⟨some ""⟩) =
      Except.ok (.time { iso := "2024-01-01T00:00:00.000Z",
                         formatted := "1/1/2024, 12:00:00 AM",
                         timezone := "UTC", unix_timestamp := 1704067200,
                         note := none }) := by
  exact ⟨by decide, by decide⟩

/-- C5 (amended): for every NON-EMPTY timezone string that is not a valid
timezone identifier, the time tool returns normally with `timezone =
"UTC"` and an explanatory note (the catch-block fallback). -/
theorem time_tool_invalid_nonempty_timezone (clock : Clock) (tz : String)
    (hne : tz ≠ "") (hinv : clock.toLocaleString tz = none) :
    executeTool clock "get_current_time" (some ⟨some tz⟩) =
      Except.ok (.time { iso := clock.toISOString, formatted := clock.toUTCString,
                         timezone := "UTC", unix_timestamp := clock.getTime / 1000,
                         note := some ("Invalid timezone \"" ++ tz ++
                                       "\", defaulted to UTC") }) := by
  unfold executeTool
  simp [hne, hinv]

/-- C5 witness: the amended theorem at the concrete invalid timezone
"Mars/Olympus" on the test clock. -/
theorem time_tool_invalid_nonempty_timezone_witness :
    executeTool testClock "get_current_time" (some ⟨some "Mars/Olympus"⟩) =
      Except.ok (.time { iso := "2024-01-01T00:00:00.000Z",
                         formatted := "Mon, 01 Jan 2024 00:00:00 GMT",
                         timezone := "UTC", unix_timestamp := 1704067200,
                         note := some "Invalid timezone \"Mars/Olympus\", defaulted to UTC" }) :=
  time_tool_invalid_nonempty_timezone testClock "Mars/Olympus" (by decide) (by decide)


/-- Reduction of the POST /chat handler for a present, non-empty message:
it runs the loop on the transcript extended with the user turn and maps
the outcome to the HTTP response, storing the final array either way. -/
theorem postChat_some (client : ModelClient) (clock : Clock) (store : Store)
    (msg : String) (session_id : Option String) (hmsg : msg ≠ "") :
    postChat client clock store (some msg) session_id =
      (match runLoop client clock maxIterations 0 ⟨0, 0⟩
          (((store (session_id.getD "default")).getD []) ++ [⟨.user, .text msg⟩]) with
       | (.success responseText usage iterations, finalMsgs) =>
           (⟨200, .chatOk responseText (session_id.getD "default") usage iterations⟩,
            store.set (session_id.getD "default") finalMsgs)
       | (.iterationLimit, finalMsgs) =>
           (⟨500, .err "Agent loop exceeded maximum iterations"⟩,
            store.set (session_id.getD "default") finalMsgs)
       | (.upstreamError, finalMsgs) =>
           (⟨500, .err "Failed to get response from LLM"⟩,
            store.set (session_id.getD "default") finalMsgs)) := by
  unfold postChat
  dsimp only
  rw [if_neg hmsg]

/-- Unfolding one loop iteration that hits the terminal (no-tool-use)
branch: the assistant turn with the full content is appended, the first
text block is extracted, usage is accumulated, the iteration counter is
returned. -/
theorem runLoop_terminal_step (client : ModelClient) (clock : Clock) (fuel it : Nat)
    (us : Usage) (ms : List Turn) (r : ModelResponse)
    (hc : client ms = Except.ok r)
    (hterm : ¬(r.stop_reason = .tool_use ∧ 0 < (r.content.filter isToolUse).length)) :
    runLoop client clock (fuel + 1) it us ms =
      (.success (extractText r.content)
        ⟨us.input_tokens + r.usage.input_tokens, us.output_tokens + r.usage.output_tokens⟩
        (it + 1),
       ms ++ [⟨.assistant, .blocks r.content⟩]) := by
  simp only [runLoop, hc]
  rw [if_neg hterm]

/-- Unfolding one loop iteration that takes the tool-dispatch branch. -/
theorem runLoop_tool_step (client : ModelClient) (clock : Clock) (fuel it : Nat)
    (us : Usage) (ms : List Turn) (r : ModelResponse) (rs : List ContentBlock)
    (hc : client ms = Except.ok r)
    (htool : r.stop_reason = .tool_use ∧ 0 < (r.content.filter isToolUse).length)
    (hrs : collectToolResults clock (r.content.filter isToolUse) = Except.ok rs) :
    runLoop client clock (fuel + 1) it us ms =
      runLoop client clock fuel (it + 1)
        ⟨us.input_tokens + r.usage.input_tokens, us.output_tokens + r.usage.output_tokens⟩
        ((ms ++ [⟨.assistant, .blocks r.content⟩]) ++ [⟨.user, .blocks rs⟩]) := by
  simp only [runLoop, hc]
  rw [if_pos htool]
  simp only [hrs]

/-- Unfolding one loop iteration in which the model call throws. -/
theorem runLoop_error_step (client : ModelClient) (clock : Clock) (fuel it : Nat)
    (us : Usage) (ms : List Turn)
    (hc : client ms = Except.error ()) :
    runLoop client clock (fuel + 1) it us ms = (.upstreamError, ms) := by
  simp only [runLoop, hc]

/-- C4: if the model's first response is `end_turn` with the single text
block "Hello", the loop terminates at iteration 1, the HTTP response is
200 with reply "Hello", the response's own usage, and `iterations = 1`,
and the transcript gains the user turn plus the final assistant turn. -/
theorem first_end_turn_hello (client : ModelClient) (clock : Clock) (store : Store)
    (msg sid : String) (u : Usage)
    (hmsg : msg ≠ "")
    (hclient : client (((store sid).getD []) ++ [⟨.user, .text msg⟩]) =
      Except.ok ⟨[.text "Hello"], .end_turn, u⟩) :
    postChat client clock store (some msg) (some sid) =
      (⟨200, .chatOk "Hello" sid u 1⟩,
       store.set sid (((store sid).getD []) ++
         [⟨.user, .text msg⟩, ⟨.assistant, .blocks [.text "Hello"]⟩])) := by
  obtain ⟨a, b⟩ := u
  rw [postChat_some client clock store msg (some sid) hmsg]
  simp only [Option.getD_some]
  have h10 : maxIterations = 9 + 1 := rfl
  have hstep := runLoop_terminal_step client clock 9 0 ⟨0, 0⟩
    (((store sid).getD []) ++ [Turn.mk Role.user (TurnContent.text msg)])
    (ModelResponse.mk [ContentBlock.text "Hello"] StopReason.end_turn (Usage.mk a b))
    hclient (by simp)
  rw [h10, hstep]
  simp [extractText, List.find?, isText, List.append_assoc]

/-- C4 witness: `helloClient` against the empty store. -/
theorem first_end_turn_hello_witness :
    postChat helloClient testClock Store.empty (some "hi") (some "s1") =
      (⟨200, .chatOk "Hello" "s1" ⟨3, 4⟩ 1⟩,
       Store.empty.set "s1"
         [⟨.user, .text "hi"⟩, ⟨.assistant, .blocks [.text "Hello"]⟩]) :=
  first_end_turn_hello helloClient testClock Store.empty "hi" "s1" ⟨3, 4⟩
    (by decide) rfl

/-- C6: on a terminal (non-tool-use) model response the loop appends an
assistant turn with the full response content, returns the first text
block's text as the reply through a success outcome (not an error), and
when no text block exists the reply is the empty string. -/
theorem terminal_response_append_and_reply (client : ModelClient) (clock : Clock)
    (fuel it : Nat) (us : Usage) (ms : List Turn) (r : ModelResponse)
    (hc : client ms = Except.ok r)
    (hterm : ¬(r.stop_reason = .tool_use ∧ 0 < (r.content.filter isToolUse).length)) :
    (runLoop client clock (fuel + 1) it us ms).2 =
        ms ++ [⟨.assistant, .blocks r.content⟩] ∧
    (runLoop client clock (fuel + 1) it us ms).1 =
        .success (extractText r.content)
          ⟨us.input_tokens + r.usage.input_tokens,
           us.output_tokens + r.usage.output_tokens⟩ (it + 1) ∧
    (r.content.find? isText = none → extractText r.content = "") := by
  rw [runLoop_terminal_step client clock fuel it us ms r hc hterm]
  refine ⟨rfl, rfl, fun h0 => ?_⟩
  unfold extractText
  rw [h0]

/-- C6 witness: a terminal response with no text block yields the empty
reply and still a success outcome. -/
theorem terminal_response_append_and_reply_witness :
    (runLoop noTextClient testClock 10 0 ⟨0, 0⟩ []).2 =
        [] ++ [⟨.assistant, .blocks []⟩] ∧
    (runLoop noTextClient testClock 10 0 ⟨0, 0⟩ []).1 =
        .success (extractText []) ⟨0 + 1, 0 + 2⟩ (0 + 1) ∧
    ((List.nil (α := ContentBlock)).find? isText = none → extractText [] = "") :=
  terminal_response_append_and_reply noTextClient testClock 9 0 ⟨0, 0⟩ []
    ⟨[], .end_turn, ⟨1, 2⟩⟩ rfl (by simp)

/-- The usage accumulator is passive: starting the loop with `d` added to
the accumulator adds `d` to any reported success usage and changes nothing
else.  Control flow never reads the accumulator. -/
theorem runLoop_usage_add (client : ModelClient) (clock : Clock) :
    ∀ (fuel it : Nat) (us d : Usage) (ms : List Turn),
      runLoop client clock fuel it
          ⟨us.input_tokens + d.input_tokens, us.output_tokens + d.output_tokens⟩ ms =
        (match runLoop client clock fuel it us ms with
         | (.success r u n, t) =>
             (.success r ⟨u.input_tokens + d.input_tokens,
                          u.output_tokens + d.output_tokens⟩ n, t)
         | other => other) := by
  intro fuel
  induction fuel with
  | zero => intro it us d ms; rfl
  | succ fuel ih =>
    intro it us d ms
    cases hc : client ms with
    | error e =>
      cases e
      rw [runLoop_error_step client clock fuel it _ ms hc,
          runLoop_error_step client clock fuel it us ms hc]
    | ok r =>
      by_cases hcond : r.stop_reason = .tool_use ∧ 0 < (r.content.filter isToolUse).length
      · cases hrs : collectToolResults clock (r.content.filter isToolUse) with
        | error e =>
          cases e
          have l1 : runLoop client clock (fuel + 1) it
              ⟨us.input_tokens + d.input_tokens, us.output_tokens + d.output_tokens⟩ ms =
              (.upstreamError, ms ++ [⟨.assistant, .blocks r.content⟩]) := by
            simp only [runLoop, hc]
            rw [if_pos hcond]
            simp only [hrs]
          have l2 : runLoop client clock (fuel + 1) it us ms =
              (.upstreamError, ms ++ [⟨.assistant, .blocks r.content⟩]) := by
            simp only [runLoop, hc]
            rw [if_pos hcond]
            simp only [hrs]
          rw [l1, l2]
        | ok rs =>
          rw [runLoop_tool_step client clock fuel it
                ⟨us.input_tokens + d.input_tokens, us.output_tokens + d.output_tokens⟩
                ms r rs hc hcond hrs,
              runLoop_tool_step client clock fuel it us ms r rs hc hcond hrs]
          have harr : (⟨(⟨us.input_tokens + d.input_tokens,
                          us.output_tokens + d.output_tokens⟩ : Usage).input_tokens +
                         r.usage.input_tokens,
                       (⟨us.input_tokens + d.input_tokens,
                          us.output_tokens + d.output_tokens⟩ : Usage).output_tokens +
                         r.usage.output_tokens⟩ : Usage) =
              ⟨(us.input_tokens + r.usage.input_tokens) + d.input_tokens,
               (us.output_tokens + r.usage.output_tokens) + d.output_tokens⟩ := by
            simp [Nat.add_right_comm]
          rw [harr]
          exact ih (it + 1)
            ⟨us.input_tokens + r.usage.input_tokens, us.output_tokens + r.usage.output_tokens⟩
            d ((ms ++ [⟨.assistant, .blocks r.content⟩]) ++ [⟨.user, .blocks rs⟩])
      · rw [runLoop_terminal_step client clock fuel it
              ⟨us.input_tokens + d.input_tokens, us.output_tokens + d.output_tokens⟩
              ms r hc hcond,
            runLoop_terminal_step client clock fuel it us ms r hc hcond]
        simp [Nat.add_right_comm]

/-- C7: within one invocation the accumulated usage only grows — a success
outcome's totals are the starting accumulator plus the nonnegative totals
of a zero-started run over the same transcript, hence non-decreasing — and
a 200 response from POST /chat reports exactly the usage of a run whose
accumulator started at zero (nothing persists across requests). -/
theorem usage_accumulates_monotonically_from_zero (client : ModelClient) (clock : Clock) :
    (∀ (fuel it : Nat) (us : Usage) (ms t : List Turn) (rsp : String) (u : Usage) (n : Nat),
       runLoop client clock fuel it us ms = (.success rsp u n, t) →
       us.input_tokens ≤ u.input_tokens ∧ us.output_tokens ≤ u.output_tokens ∧
       ∃ u0, runLoop client clock fuel it ⟨0, 0⟩ ms = (.success rsp u0 n, t) ∧
         u.input_tokens = us.input_tokens + u0.input_tokens ∧
         u.output_tokens = us.output_tokens + u0.output_tokens) ∧
    (∀ (store : Store) (msg sid rsp : String) (u : Usage) (n : Nat) (st : Store),
       msg ≠ "" →
       postChat client clock store (some msg) (some sid) =
         (⟨200, .chatOk rsp sid u n⟩, st) →
       ∃ t, runLoop client clock maxIterations 0 ⟨0, 0⟩
           (((store sid).getD []) ++ [⟨.user, .text msg⟩]) = (.success rsp u n, t)) := by
  have key : ∀ (fuel it : Nat) (us : Usage) (ms t : List Turn) (rsp : String)
      (u : Usage) (n : Nat),
      runLoop client clock fuel it us ms = (.success rsp u n, t) →
      ∃ u0, runLoop client clock fuel it ⟨0, 0⟩ ms = (.success rsp u0 n, t) ∧
        u.input_tokens = us.input_tokens + u0.input_tokens ∧
        u.output_tokens = us.output_tokens + u0.output_tokens := by
    intro fuel it us ms t rsp u n h
    have hadd := runLoop_usage_add client clock fuel it ⟨0, 0⟩ us ms
    have husz : (⟨(⟨0, 0⟩ : Usage).input_tokens + us.input_tokens,
                  (⟨0, 0⟩ : Usage).output_tokens + us.output_tokens⟩ : Usage) = us := by
      cases us
      simp
    rw [husz, h] at hadd
    rcases hz : runLoop client clock fuel it ⟨0, 0⟩ ms with ⟨outcome, t0⟩
    rw [hz] at hadd
    cases outcome with
    | success r0 u0 n0 =>
      dsimp only at hadd
      rw [Prod.mk.injEq, ChatOutcome.success.injEq] at hadd
      obtain ⟨⟨h1, h2, h3⟩, h4⟩ := hadd
      subst h1
      subst h3
      subst h4
      refine ⟨u0, rfl, ?_, ?_⟩
      · rw [h2]
        exact Nat.add_comm _ _
      · rw [h2]
        exact Nat.add_comm _ _
    | iterationLimit => exact absurd hadd (by simp)
    | upstreamError => exact absurd hadd (by simp)
  constructor
  · intro fuel it us ms t rsp u n h
    obtain ⟨u0, hz, hin, hout⟩ := key fuel it us ms t rsp u n h
    refine ⟨?_, ?_, u0, hz, hin, hout⟩
    · rw [hin]
      exact Nat.le_add_right _ _
    · rw [hout]
      exact Nat.le_add_right _ _
  · intro store msg sid rsp u n st hmsg h
    rw [postChat_some client clock store msg (some sid) hmsg] at h
    simp only [Option.getD_some] at h
    rcases hz : runLoop client clock maxIterations 0 ⟨0, 0⟩
        (((store sid).getD []) ++ [⟨.user, .text msg⟩]) with ⟨outcome, t0⟩
    rw [hz] at h
    cases outcome with
    | success r0 u0 n0 =>
      dsimp only at h
      rw [Prod.mk.injEq, HttpResponse.mk.injEq, ChatBody.chatOk.injEq] at h
      obtain ⟨⟨_, hrsp, _, hu, hn⟩, _⟩ := h
      exact ⟨t0, by rw [hz, hrsp, hu, hn]⟩
    | iterationLimit => exact absurd h (by simp)
    | upstreamError => exact absurd h (by simp)

/-- C7 witness: one terminal iteration starting from the accumulator
(5, 6): the reported totals (8, 10) dominate it and decompose as 5 + 3 and
6 + 4 over the zero-started run. -/
theorem usage_accumulates_monotonically_from_zero_witness :
    (5 : Nat) ≤ 8 ∧ (6 : Nat) ≤ 10 ∧
    ∃ u0, runLoop helloClient testClock 1 0 ⟨0, 0⟩ [] =
        (.success "Hello" u0 1, [⟨.assistant, .blocks [.text "Hello"]⟩]) ∧
      (8 : Nat) = 5 + u0.input_tokens ∧ (10 : Nat) = 6 + u0.output_tokens :=
  (usage_accumulates_monotonically_from_zero helloClient testClock).1
    1 0 ⟨5, 6⟩ [] [⟨.assistant, .blocks [.text "Hello"]⟩] "Hello" ⟨8, 10⟩ 1 rfl

/-- Appending a list of turns to a session that holds `init` leaves the
session holding `init ++ ts`. -/
theorem appendTurns_lookup : ∀ (ts : List Turn) (store : Store) (sid : String)
    (init : List Turn), store sid = some init →
    (appendTurns store sid ts) sid = some (init ++ ts) := by
  intro ts
  induction ts with
  | nil =>
    intro store sid init h
    simpa [appendTurns] using h
  | cons t rest ih =>
    intro store sid init h
    have h1 : (appendTurn store sid t) sid = some (init ++ [t]) := by
      simp [appendTurn, Store.set, h]
    have h2 := ih (appendTurn store sid t) sid (init ++ [t]) h1
    simpa [appendTurns, List.append_assoc] using h2

/-- C8: appending a sequence of turns to a session's transcript and then
reading it back through GET /chat/:session_id returns exactly the prior
transcript followed by the appended turns, in insertion order, unchanged. -/
theorem append_then_get_round_trip (store : Store) (sid : String) (init ts : List Turn)
    (h : store sid = some init) :
    getChat (appendTurns store sid ts) sid = ⟨200, .history sid (init ++ ts)⟩ := by
  unfold getChat
  rw [appendTurns_lookup ts store sid init h]

/-- C8 witness: two turns appended to a fresh empty session come back
verbatim. -/
theorem append_then_get_round_trip_witness :
    getChat (appendTurns (Store.empty.set "s" []) "s"
        [⟨.user, .text "hi"⟩, ⟨.assistant, .blocks [.text "yo"]⟩]) "s" =
      ⟨200, .history "s"
        ([] ++ [⟨.user, .text "hi"⟩, ⟨.assistant, .blocks [.text "yo"]⟩])⟩ :=
  append_then_get_round_trip (Store.empty.set "s" []) "s" []
    [⟨.user, .text "hi"⟩, ⟨.assistant, .blocks [.text "yo"]⟩] rfl

/-- C9: deleting an absent session id yields 404 with the store unchanged;
deleting an existing one yields 200 with the confirmation message and a
subsequent GET of the same id yields 404. -/
theorem delete_semantics (store : Store) (sid : String) :
    (store sid = none → deleteChat store sid = (⟨404, .err "Session not found"⟩, store)) ∧
    (∀ ms, store sid = some ms →
      (deleteChat store sid).1 = ⟨200, .cleared ("Session " ++ sid ++ " cleared")⟩ ∧
      getChat (deleteChat store sid).2 sid = ⟨404, .err "Session not found"⟩) := by
  constructor
  · intro h
    unfold deleteChat
    rw [h]
  · intro ms h
    unfold deleteChat
    rw [h]
    exact ⟨rfl, by simp [getChat, Store.erase]⟩

/-- C9 witness: deleting a present session "a" returns the confirmation
and a following GET returns 404. -/
theorem delete_semantics_witness :
    (deleteChat (Store.empty.set "a" [⟨.user, .text "m"⟩]) "a").1 =
        ⟨200, .cleared ("Session " ++ "a" ++ " cleared")⟩ ∧
    getChat (deleteChat (Store.empty.set "a" [⟨.user, .text "m"⟩]) "a").2 "a" =
        ⟨404, .err "Session not found"⟩ :=
  (delete_semantics (Store.empty.set "a" [⟨.user, .text "m"⟩]) "a").2
    [⟨.user, .text "m"⟩] rfl

/-- Whatever the loop does, it only ever appends: the final transcript
extends the starting one. -/
theorem runLoop_extends (client : ModelClient) (clock : Clock) :
    ∀ (fuel it : Nat) (us : Usage) (ms : List Turn),
      ∃ suffix, (runLoop client clock fuel it us ms).2 = ms ++ suffix := by
  intro fuel
  induction fuel with
  | zero =>
    intro it us ms
    exact ⟨[], by simp [runLoop]⟩
  | succ fuel ih =>
    intro it us ms
    cases hc : client ms with
    | error e =>
      cases e
      exact ⟨[], by rw [runLoop_error_step client clock fuel it us ms hc]; simp⟩
    | ok r =>
      by_cases hcond : r.stop_reason = .tool_use ∧ 0 < (r.content.filter isToolUse).length
      · cases hrs : collectToolResults clock (r.content.filter isToolUse) with
        | error e =>
          cases e
          have l1 : runLoop client clock (fuel + 1) it us ms =
              (.upstreamError, ms ++ [⟨.assistant, .blocks r.content⟩]) := by
            simp only [runLoop, hc]
            rw [if_pos hcond]
            simp only [hrs]
          exact ⟨[⟨.assistant, .blocks r.content⟩], by rw [l1]⟩
        | ok rs =>
          obtain ⟨s, hs⟩ := ih (it + 1)
            ⟨us.input_tokens + r.usage.input_tokens, us.output_tokens + r.usage.output_tokens⟩
            ((ms ++ [⟨.assistant, .blocks r.content⟩]) ++ [⟨.user, .blocks rs⟩])
          refine ⟨[⟨.assistant, .blocks r.content⟩, ⟨.user, .blocks rs⟩] ++ s, ?_⟩
          rw [runLoop_tool_step client clock fuel it us ms r rs hc hcond hrs, hs]
          simp
      · exact ⟨[⟨.assistant, .blocks r.content⟩],
          by rw [runLoop_terminal_step client clock fuel it us ms r hc hcond]⟩

/-- C10: if the model call throws at some iteration, the request gets the
500 upstream-error response, yet nothing is rolled back: the session entry
exists in the store afterwards and holds the loop's final transcript,
which extends the prior transcript plus the new user turn by everything
appended in earlier iterations. -/
theorem upstream_failure_no_rollback (client : ModelClient) (clock : Clock) (store : Store)
    (msg sid : String) (t : List Turn)
    (hmsg : msg ≠ "")
    (hfail : runLoop client clock maxIterations 0 ⟨0, 0⟩
        (((store sid).getD []) ++ [⟨.user, .text msg⟩]) = (.upstreamError, t)) :
    postChat client clock store (some msg) (some sid) =
      (⟨500, .err "Failed to get response from LLM"⟩, store.set sid t) ∧
    (store.set sid t) sid = some t ∧
    ∃ suffix, t = (((store sid).getD []) ++ [⟨.user, .text msg⟩]) ++ suffix := by
  refine ⟨?_, ?_, ?_⟩
  · rw [postChat_some client clock store msg (some sid) hmsg]
    simp only [Option.getD_some]
    rw [hfail]
  · simp [Store.set]
  · obtain ⟨s, hs⟩ := runLoop_extends client clock maxIterations 0 ⟨0, 0⟩
      (((store sid).getD []) ++ [⟨.user, .text msg⟩])
    rw [hfail] at hs
    exact ⟨s, hs⟩

/-- C10 witness: a client that throws on the very first call against a
fresh store: the 500 response is returned and the session entry exists,
holding the user turn. -/
theorem upstream_failure_no_rollback_witness :
    postChat failingClient testClock Store.empty (some "hi") (some "w") =
      (⟨500, .err "Failed to get response from LLM"⟩,
       Store.empty.set "w" [⟨.user, .text "hi"⟩]) ∧
    (Store.empty.set "w" [⟨.user, .text "hi"⟩]) "w" = some [⟨.user, .text "hi"⟩] ∧
    ∃ suffix, [(⟨.user, .text "hi"⟩ : Turn)] =
      (((Store.empty "w").getD []) ++ [⟨.user, .text "hi"⟩]) ++ suffix :=
  upstream_failure_no_rollback failingClient testClock Store.empty "hi" "w"
    [⟨.user, .text "hi"⟩] (by decide) rfl

/-- Against a model that requests tools on every call, the loop burns all
its fuel, appending one assistant/user pair per iteration, and ends in the
iteration-limit outcome with everything retained. -/
theorem runLoop_always_tool_limit (client : ModelClient) (clock : Clock)
    (H : ∀ ms r, client ms = Except.ok r →
       r.stop_reason = .tool_use ∧ 0 < (r.content.filter isToolUse).length)
    (Hok : ∀ ms, ∃ r, client ms = Except.ok r) :
    ∀ (fuel it : Nat) (us : Usage) (ms : List Turn),
      ∃ suffix, runLoop client clock fuel it us ms = (.iterationLimit, ms ++ suffix) ∧
        AssistantUserPairs suffix ∧ suffix.length = 2 * fuel := by
  intro fuel
  induction fuel with
  | zero =>
    intro it us ms
    exact ⟨[], by simp [runLoop], .nil, rfl⟩
  | succ fuel ih =>
    intro it us ms
    obtain ⟨r, hc⟩ := Hok ms
    have hcond := H ms r hc
    obtain ⟨rs, hrs, _⟩ := collectToolResults_ok clock (r.content.filter isToolUse)
      (fun b hb => (List.mem_filter.mp hb).2)
    obtain ⟨s, hs, hpairs, hlen⟩ := ih (it + 1)
      ⟨us.input_tokens + r.usage.input_tokens, us.output_tokens + r.usage.output_tokens⟩
      ((ms ++ [⟨.assistant, .blocks r.content⟩]) ++ [⟨.user, .blocks rs⟩])
    refine ⟨⟨.assistant, .blocks r.content⟩ :: ⟨.user, .blocks rs⟩ :: s, ?_, ?_, ?_⟩
    · rw [runLoop_tool_step client clock fuel it us ms r rs hc hcond hrs, hs]
      simp
    · exact AssistantUserPairs.cons _ _ _ hpairs
    · simp [hlen]
      omega

/-- C3: if the model returns `stop_reason = tool_use` with at least one
tool-use block on every call, POST /chat fails with HTTP 500 "Agent loop
exceeded maximum iterations" after exactly `maxIterations = 10`
iterations, and the stored transcript retains the user turn followed by
exactly 10 assistant/user turn pairs (20 turns), not rolled back. -/
theorem always_tool_use_hits_iteration_limit (client : ModelClient) (clock : Clock)
    (store : Store) (msg sid : String)
    (hmsg : msg ≠ "")
    (H : ∀ ms r, client ms = Except.ok r →
       r.stop_reason = .tool_use ∧ 0 < (r.content.filter isToolUse).length)
    (Hok : ∀ ms, ∃ r, client ms = Except.ok r) :
    ∃ suffix, postChat client clock store (some msg) (some sid) =
        (⟨500, .err "Agent loop exceeded maximum iterations"⟩,
         store.set sid ((((store sid).getD []) ++ [⟨.user, .text msg⟩]) ++ suffix)) ∧
      AssistantUserPairs suffix ∧ suffix.length = 2 * maxIterations := by
  obtain ⟨s, hs, hp, hl⟩ := runLoop_always_tool_limit client clock H Hok
    maxIterations 0 ⟨0, 0⟩ (((store sid).getD []) ++ [⟨.user, .text msg⟩])
  refine ⟨s, ?_, hp, hl⟩
  rw [postChat_some client clock store msg (some sid) hmsg]
  simp only [Option.getD_some]
  rw [hs]

/-- C3 witness: the always-tool client against a fresh store. -/
theorem always_tool_use_hits_iteration_limit_witness :
    ∃ suffix, postChat alwaysToolClient testClock Store.empty (some "go") (some "s") =
        (⟨500, .err "Agent loop exceeded maximum iterations"⟩,
         Store.empty.set "s" ((((Store.empty "s").getD []) ++ [⟨.user, .text "go"⟩]) ++ suffix)) ∧
      AssistantUserPairs suffix ∧ suffix.length = 2 * maxIterations :=
  always_tool_use_hits_iteration_limit alwaysToolClient testClock Store.empty "go" "s"
    (by decide)
    (fun ms r h => by
      injection h with h
      subst h
      exact ⟨rfl, by decide⟩)
    (fun ms => ⟨_, rfl⟩)

/-- `ToolPaired` looks only at adjacent turns, so a transcript with no
trailing unanswered tool calls can be extended by any paired transcript. -/
theorem toolPaired_append : ∀ xs ys : List Turn,
    ToolPaired xs → ToolPaired ys → ToolPaired (xs ++ ys) := by
  intro xs
  induction xs with
  | nil =>
    intro ys h1 h2
    simpa using h2
  | cons turn rest ih =>
    intro ys h1 h2
    obtain ⟨role, content⟩ := turn
    rw [List.cons_append]
    cases role with
    | user =>
      cases content with
      | text s =>
        simp only [ToolPaired] at h1 ⊢
        exact ih ys h1 h2
      | blocks bs =>
        simp only [ToolPaired] at h1 ⊢
        exact ih ys h1 h2
    | assistant =>
      cases content with
      | text s =>
        simp only [ToolPaired] at h1 ⊢
        exact ih ys h1 h2
      | blocks c =>
        simp only [ToolPaired] at h1 ⊢
        obtain ⟨hhead, htail⟩ := h1
        refine ⟨?_, ih ys htail h2⟩
        by_cases hemp : (c.filter isToolUse).isEmpty
        · rw [if_pos hemp]
          trivial
        · rw [if_neg hemp] at hhead ⊢
          cases rest with
          | nil => exact hhead.elim
          | cons t2 rest2 =>
            obtain ⟨role2, content2⟩ := t2
            cases role2 with
            | user =>
              cases content2 with
              | text s2 => exact hhead.elim
              | blocks rs => exact hhead
            | assistant => exact hhead.elim

/-- One assistant turn with tool calls followed by its matching result
turn is paired. -/
theorem toolPaired_pair (c rs : List ContentBlock)
    (h : List.Forall₂ IdMatch (c.filter isToolUse) rs) :
    ToolPaired [⟨.assistant, .blocks c⟩, ⟨.user, .blocks rs⟩] := by
  simp only [ToolPaired]
  refine ⟨?_, trivial⟩
  by_cases hemp : (c.filter isToolUse).isEmpty
  · rw [if_pos hemp]
    trivial
  · rw [if_neg hemp]
    exact h

/-- A lone assistant turn with no tool-use blocks is paired. -/
theorem toolPaired_single_terminal (c : List ContentBlock)
    (hemp : (c.filter isToolUse).isEmpty) :
    ToolPaired [⟨.assistant, .blocks c⟩] := by
  simp only [ToolPaired]
  rw [if_pos hemp]
  exact ⟨trivial, trivial⟩

/-- C2 (amended): in every transcript the agent loop produces, an
assistant turn whose content contains tool-use blocks is immediately
followed by a single user turn with exactly one id-matching tool_result
per tool_use block, in the order received — PROVIDED the model only emits
tool-use blocks in responses whose stop_reason is tool_use.  (The pair is
appended before the next model call by construction of the loop.) -/
theorem loop_transcript_tool_pairing (client : ModelClient) (clock : Clock)
    (H : ∀ ms r, client ms = Except.ok r →
       ¬(r.content.filter isToolUse).isEmpty = true → r.stop_reason = .tool_use) :
    ∀ (fuel it : Nat) (us : Usage) (ms : List Turn),
      ToolPaired ms → ToolPaired (runLoop client clock fuel it us ms).2 := by
  intro fuel
  induction fuel with
  | zero =>
    intro it us ms h
    simpa [runLoop] using h
  | succ fuel ih =>
    intro it us ms h
    cases hc : client ms with
    | error e =>
      cases e
      rw [runLoop_error_step client clock fuel it us ms hc]
      exact h
    | ok r =>
      by_cases hcond : r.stop_reason = .tool_use ∧ 0 < (r.content.filter isToolUse).length
      · obtain ⟨rs, hrs, hmatch⟩ := collectToolResults_ok clock (r.content.filter isToolUse)
          (fun b hb => (List.mem_filter.mp hb).2)
        rw [runLoop_tool_step client clock fuel it us ms r rs hc hcond hrs]
        apply ih
        rw [List.append_assoc]
        exact toolPaired_append ms _ h (toolPaired_pair r.content rs hmatch)
      · rw [runLoop_terminal_step client clock fuel it us ms r hc hcond]
        have hemp : (r.content.filter isToolUse).isEmpty = true := by
          by_contra hne
          apply hcond
          refine ⟨H ms r hc hne, ?_⟩
          cases hfe : r.content.filter isToolUse with
          | nil => rw [hfe] at hne; exact absurd rfl hne
          | cons b l => simp [hfe]
        exact toolPaired_append ms _ h (toolPaired_single_terminal r.content hemp)

/-- C2 witness: a run against a model that never asks for tools keeps the
transcript paired. -/
theorem loop_transcript_tool_pairing_witness :
    ToolPaired (runLoop helloClient testClock 10 0 ⟨0, 0⟩ []).2 :=
  loop_transcript_tool_pairing helloClient testClock
    (fun ms r h hne => by
      injection h with h
      subst h
      exact absurd (by decide) hne)
    10 0 ⟨0, 0⟩ [] trivial

/-- C2 counterexample: a model response whose stop_reason is `end_turn`
but whose content carries a tool_use block takes the terminal branch, so
the transcript ends with an assistant turn containing a tool-use block
that is never followed by a tool-result turn: the claim as stated fails
for this run of the loop. -/
theorem loop_unpaired_on_end_turn_with_tool_use :
    (runLoop mixedStopClient testClock 10 0 ⟨0, 0⟩ []).2 =
      [⟨.assistant, .blocks [.tool_use "t1" "get_current_time" ⟨none⟩]⟩] ∧
    ¬ ToolPaired (runLoop mixedStopClient testClock 10 0 ⟨0, 0⟩ []).2 := by
  refine ⟨rfl, ?_⟩
  have h2 : (runLoop mixedStopClient testClock 10 0 ⟨0, 0⟩ []).2 =
      [⟨.assistant, .blocks [.tool_use "t1" "get_current_time" ⟨none⟩]⟩] := rfl
  rw [h2]
  intro hp
  simp only [ToolPaired] at hp
  rw [if_neg (by decide)] at hp
  exact hp.1
